import Mathlib

/-!
Verification development for the Bukmuk CRM lead-cleaning pipeline
(`data_cleaner.py`, class `LeadsDataCleaner`).

Cells of the pandas DataFrame are modelled as `Option String`: `none` stands
for a missing value (NaN/None, i.e. `pd.isna` is true), `some s` for the
string value `s`.  Numeric cells are represented by their string rendering,
which is what every cleaning function immediately converts them to via
`str(...)`.  A record is the canonical row shape produced by column
normalisation; column *presence* in the frame (which several functions test
with `'col' in df.columns`) is modelled by the `Cols` flag structure.
-/

/-- Whitespace test used by Python `str.strip` / `str.split` / `\s`
(restricted to the ASCII whitespace characters, which are the only ones the
proofs and counterexamples exercise). -/
def wsB (c : Char) : Bool :=
  c == ' ' || c == '\t' || c == '\n' || c == '\r' || c == '\x0b' || c == '\x0c'

/-- Python `str.strip()` on the character list of a string. -/
def stripChars (l : List Char) : List Char :=
  ((l.dropWhile wsB).reverse.dropWhile wsB).reverse

/-- ASCII uppercase test (`c` in `A`..`Z`). -/
def upperB (c : Char) : Bool :=
  65 ≤ c.toNat && c.toNat ≤ 90

/-- ASCII lowercase test (`c` in `a`..`z`). -/
def lowerB (c : Char) : Bool :=
  97 ≤ c.toNat && c.toNat ≤ 122

/-- ASCII letter test, the `[a-zA-Z]` character class. -/
def alphaB (c : Char) : Bool :=
  upperB c || lowerB c

/-- ASCII digit test, the `\d` / `[0-9]` character class. -/
def digitB (c : Char) : Bool :=
  48 ≤ c.toNat && c.toNat ≤ 57

/-- Python `str.lower` on one character (ASCII range, as exercised here). -/
def pyLowerChar (c : Char) : Char :=
  if upperB c then Char.ofNat (c.toNat + 32) else c

/-- Python `str.upper` on one character (ASCII range, as exercised here). -/
def pyUpperChar (c : Char) : Char :=
  if lowerB c then Char.ofNat (c.toNat - 32) else c

/-- Python `str.lower` on a whole string. -/
def pyLower (s : String) : String :=
  String.mk (s.data.map pyLowerChar)

/-- Python `str.strip` on a whole string. -/
def pyStrip (s : String) : String :=
  String.mk (stripChars s.data)

/-- Python `str.title()`: a letter that follows a non-letter is uppercased, every
other letter is lowercased (ASCII behaviour). -/
def pyTitleAux : Bool → List Char → List Char
  | _, [] => []
  | prevAlpha, c :: t =>
    (if alphaB c then (if prevAlpha then pyLowerChar c else pyUpperChar c) else c) ::
      pyTitleAux (alphaB c) t

/-- Python `str.title` on a whole string. -/
def pyTitle (s : String) : String :=
  String.mk (pyTitleAux false s.data)

/-- Python `re.sub(r'\s+', ' ', s)`: each maximal whitespace run becomes one space. -/
def collapseWsAux : Bool → List Char → List Char
  | _, [] => []
  | prevWs, c :: t =>
    if wsB c then
      (if prevWs then collapseWsAux true t else ' ' :: collapseWsAux true t)
    else
      c :: collapseWsAux false t

/-- Python `str.split()` (no separator): split on whitespace runs, dropping
empty pieces. `acc` holds the current token, reversed. -/
def splitWsAux : List Char → List Char → List String
  | acc, [] => if acc.isEmpty then [] else [String.mk acc.reverse]
  | acc, c :: t =>
    if wsB c then
      (if acc.isEmpty then splitWsAux [] t else String.mk acc.reverse :: splitWsAux [] t)
    else
      splitWsAux (c :: acc) t

/-- Python `str.split()` on a whole string. -/
def pySplit (s : String) : List String :=
  splitWsAux [] s.data

/-- Boolean substring test: `needle in hay` for Python strings, on char
lists.  `subPrefixB n h` is true when `n` is a prefix of `h`. -/
def subPrefixB : List Char → List Char → Bool
  | [], _ => true
  | _ :: _, [] => false
  | a :: as, b :: bs => a == b && subPrefixB as bs

/-- Boolean substring containment on char lists. -/
def containsSubAux (needle : List Char) : List Char → Bool
  | [] => subPrefixB needle []
  | h :: t => subPrefixB needle (h :: t) || containsSubAux needle t

/-- Python `needle in hay` on strings. -/
def containsSub (hay needle : String) : Bool :=
  containsSubAux needle.data hay.data

/-- Python `str(x)` applied to a cell: a missing value renders as the literal
string `"nan"` (the text form of a float NaN), a present value is itself. -/
def cellStr (x : Option String) : String :=
  match x with
  | none => "nan"
  | some s => s

/-- A canonical lead record: the fixed semantic fields produced by column
normalisation.  All fields are optional cells. -/
structure Record where
  full_name : Option String := none
  first_name : Option String := none
  last_name : Option String := none
  phone_number : Option String := none
  email : Option String := none
  city : Option String := none
  child_age : Option String := none
  lead_type : Option String := none
  source_sheet : Option String := none
deriving DecidableEq

/-- Which canonical columns are present in the frame.  Several functions in
`data_cleaner.py` branch on `'col' in df.columns`; those column-existence
tests are modelled by these flags. -/
structure Cols where
  phone : Bool := true
  email : Bool := true
  name : Bool := true
  first : Bool := false
  last : Bool := false
  city : Bool := true
  sheet : Bool := true
deriving DecidableEq

/-- The digit extraction `re.sub(r'[^\d]', '', str(phone))`. -/
def pyDigits (s : String) : List Char :=
  s.data.filter digitB

/-- The `(AAA) BBB-CCCC` formatting of a ten-digit char list. -/
def formatPhone (d : List Char) : String :=
  "(" ++ String.mk (d.take 3) ++ ") " ++ String.mk ((d.drop 3).take 3) ++ "-" ++
    String.mk (d.drop 6)

/-- Model of `clean_phone` from `LeadsDataCleaner.clean_phone_numbers`: NaN is
returned unchanged; otherwise all non-digits are stripped; 10 digits are
formatted `(AAA) BBB-CCCC`; 11 digits starting with `1` drop the leading
digit and format the rest; any other non-empty digit string passes through
bare; an empty digit string becomes `None`. -/
def clean_phone (phone : Option String) : Option String :=
  match phone with
  | none => none
  | some s =>
    let d := pyDigits s
    if d.length = 10 then some (formatPhone d)
    else if d.length = 11 ∧ d.headD ' ' = '1' then some (formatPhone d.tail)
    else if 0 < d.length then some (String.mk d)
    else none

/-- Character class `[a-zA-Z0-9._%+-]` of the email regex local part. -/
def emailLocalCharB (c : Char) : Bool :=
  alphaB c || digitB c || c == '.' || c == '_' || c == '%' || c == '+' || c == '-'

/-- Character class `[a-zA-Z0-9-]` of one dot-separated domain piece. -/
def emailDomainCharB (c : Char) : Bool :=
  alphaB c || digitB c || c == '-'

/-- Match of the anchored pattern
`^[a-zA-Z0-9._%+-]+@[a-zA-Z0-9.-]+\.[a-zA-Z]{2,}$`: exactly one `@`; a
non-empty local part over its class; a domain that splits on `.` into at
least two pieces, the pieces before the last over `[a-zA-Z0-9-]` and jointly
non-empty, the last piece at least two letters. -/
def emailMatchB (s : String) : Bool :=
  match s.splitOn "@" with
  | [localPart, domain] =>
    let ps := domain.splitOn "."
    let t := ps.getLastD ""
    let localOK := !localPart.data.isEmpty && localPart.data.all emailLocalCharB
    let tldOK := decide (2 ≤ t.data.length) && t.data.all alphaB
    let frontOK := ps.dropLast.all (fun p => p.data.all emailDomainCharB) &&
      !(String.intercalate "." ps.dropLast).data.isEmpty
    localOK && decide (2 ≤ ps.length) && tldOK && frontOK
  | _ => false

/-- Model of `clean_email` from `LeadsDataCleaner.clean_emails`: NaN unchanged;
otherwise strip, lowercase, and validate against the RFC-lite pattern;
non-matching values become `None`. -/
def clean_email (email : Option String) : Option String :=
  match email with
  | none => none
  | some s =>
    let e := pyLower (pyStrip s)
    if emailMatchB e then some e else none

/-- Model of `clean_name` from `LeadsDataCleaner.clean_names`: NaN unchanged;
otherwise strip, collapse internal whitespace, title-case. -/
def clean_name (name : Option String) : Option String :=
  match name with
  | none => none
  | some s => some (pyTitle (String.mk (collapseWsAux false (stripChars s.data))))

/-- The derived first name: `df['full_name'].astype(str).str.split().str[0]`.
`astype(str)` renders a missing cell as the literal `"nan"`; `.str[0]` of an
empty token list is NaN. -/
def derive_first_name (fn : Option String) : Option String :=
  match pySplit (cellStr fn) with
  | [] => none
  | t :: _ => some t

/-- The derived last name:
`df['full_name'].astype(str).str.split().str[1:].str.join(' ')` — the tail
of the token list joined by a space (the empty join is the empty string). -/
def derive_last_name (fn : Option String) : Option String :=
  some (String.intercalate " " (pySplit (cellStr fn)).tail)

/-- One record's part of `LeadsDataCleaner.clean_names`: clean `full_name`,
then derive `first_name` / `last_name` only when those columns are absent
from the frame. -/
def clean_names_record (c : Cols) (r : Record) : Record :=
  let fn := clean_name r.full_name
  { r with
    full_name := fn
    first_name := if c.first then r.first_name else derive_first_name fn
    last_name := if c.last then r.last_name else derive_last_name fn }

/-- Model of `LeadsDataCleaner.clean_names` over the frame: a no-op when the
`full_name` column is absent. -/
def clean_names_step (c : Cols) (rows : List Record) : List Record :=
  if c.name then rows.map (clean_names_record c) else rows

/-- Model of `LeadsDataCleaner.clean_phone_numbers` over the frame: a no-op when the
`phone_number` column is absent. -/
def clean_phone_numbers (c : Cols) (rows : List Record) : List Record :=
  if c.phone then rows.map (fun r => { r with phone_number := clean_phone r.phone_number })
  else rows

/-- Model of `LeadsDataCleaner.clean_emails` over the frame: a no-op when the `email`
column is absent. -/
def clean_emails (c : Cols) (rows : List Record) : List Record :=
  if c.email then rows.map (fun r => { r with email := clean_email r.email })
  else rows

/-- The per-cell address transform of `LeadsDataCleaner.clean_addresses`:
`str(x).strip().title() if pd.notna(x) else None`. -/
def clean_address_cell (x : Option String) : Option String :=
  match x with
  | none => none
  | some s => some (pyTitle (pyStrip s))

/-- Model of `LeadsDataCleaner.clean_addresses` restricted to the canonical fields
present in `Record` (of `address`, `city`, `state`, `country`,
`postal_code`, only `city` is part of the canonical record shape). -/
def clean_addresses (c : Cols) (rows : List Record) : List Record :=
  if c.city then rows.map (fun r => { r with city := clean_address_cell r.city })
  else rows

/-- The populated-field test used by the completeness and lead scores:
`pd.notna(x) and str(x).strip() != ''`. -/
def populatedB (x : Option String) : Bool :=
  match x with
  | none => false
  | some s => !(pyStrip s).data.isEmpty

/-- The `duplicate_key` column of `LeadsDataCleaner.remove_duplicates`: the
key field is chosen once for the whole frame — the `phone_number` column if
it exists, else the `email` column, else the `full_name` column — and each
record's key is that field's value after `fillna('')`.  (The code also
builds a `secondary_key` column, but never uses it: `drop_duplicates` runs
on `duplicate_key` alone, so it is not modelled.) -/
def dupKey (c : Cols) (r : Record) : String :=
  if c.phone then r.phone_number.getD ""
  else if c.email then r.email.getD ""
  else r.full_name.getD ""

/-- Model of `get_completeness_score` from `LeadsDataCleaner.remove_duplicates`:
phone 40, email 35, city 15, full name 10, each counted when the column is
in the row's index and the value is populated. -/
def get_completeness_score (c : Cols) (r : Record) : Nat :=
  (if c.phone && populatedB r.phone_number then 40 else 0) +
    (if c.email && populatedB r.email then 35 else 0) +
    (if c.city && populatedB r.city then 15 else 0) +
    (if c.name && populatedB r.full_name then 10 else 0)

/-- The `sheet_priority` table of `remove_duplicates`, in iteration order. -/
def sheetPriorityTable : List (String × Nat) :=
  [("Main", 1), ("Primary", 1), ("Leads", 2), ("Contacts", 3)]

/-- Model of `get_sheet_priority` from `remove_duplicates`: the first table entry
whose lowercased key occurs in `str(sheet_name).lower()` gives the rank;
otherwise 999. -/
def get_sheet_priority (sheet_name : Option String) : Nat :=
  match sheetPriorityTable.find?
      (fun p => containsSub (pyLower (cellStr sheet_name)) (pyLower p.1)) with
  | some p => p.2
  | none => 999

/-- The sort key relation of the dedup sort
`sort_values(['completeness_score', 'sheet_priority'], ascending=[False, True])`
on index-annotated rows.  pandas' multi-key sort is stable (lexsort), which
is equivalent to breaking remaining ties by original position; the position
tie-break encodes that stability.  Without a `source_sheet` column the code
sorts by the completeness score alone. -/
def rowLeB (c : Cols) (a b : Nat × Record) : Bool :=
  let sa := get_completeness_score c a.2
  let sb := get_completeness_score c b.2
  if c.sheet then
    let pa := get_sheet_priority a.2.source_sheet
    let pb := get_sheet_priority b.2.source_sheet
    decide (sb < sa) || (sa == sb && (decide (pa < pb) || (pa == pb && decide (a.1 ≤ b.1))))
  else
    decide (sb < sa) || (sa == sb && decide (a.1 ≤ b.1))

/-- The sort relation as a decidable proposition. -/
def rowLe (c : Cols) (a b : Nat × Record) : Prop :=
  rowLeB c a b = true

instance (c : Cols) : DecidableRel (rowLe c) :=
  fun a b => inferInstanceAs (Decidable (rowLeB c a b = true))

/-- Model of `drop_duplicates(subset=['duplicate_key'], keep='first')`: walk the rows
in order, keeping a row exactly when its key has not been seen yet. -/
def drop_duplicates (k : Nat × Record → String) :
    List String → List (Nat × Record) → List (Nat × Record)
  | _, [] => []
  | seen, x :: xs =>
    if k x ∈ seen then drop_duplicates k seen xs
    else x :: drop_duplicates k (k x :: seen) xs

/-- Model of `LeadsDataCleaner.remove_duplicates` on index-annotated rows: compute
the duplicate key and completeness score per row, sort by (score
descending, sheet rank ascending) stably, and keep the first row of each
key group. -/
def remove_duplicates_annotated (c : Cols) (rows : List Record) : List (Nat × Record) :=
  drop_duplicates (fun x => dupKey c x.2) []
    (List.insertionSort (rowLe c) rows.enum)

/-- Model of `LeadsDataCleaner.remove_duplicates`: the surviving records, with the
helper columns (`duplicate_key`, `completeness_score`, `sheet_priority`)
dropped again. -/
def remove_duplicates (c : Cols) (rows : List Record) : List Record :=
  (remove_duplicates_annotated c rows).map Prod.snd

/-- Model of `calculate_lead_score` from `LeadsDataCleaner.add_metadata`: phone 40,
email 35, city 15, and 10 when `child_age` or `lead_type` is non-null
(`pd.notna`, with no emptiness test for those two). -/
def calculate_lead_score (r : Record) : Nat :=
  (if populatedB r.phone_number then 40 else 0) +
    (if populatedB r.email then 35 else 0) +
    (if populatedB r.city then 15 else 0) +
    (if r.child_age.isSome || r.lead_type.isSome then 10 else 0)

/-- Model of `assign_priority` from `LeadsDataCleaner.add_metadata`. -/
def assign_priority (score : Nat) : String :=
  if 70 ≤ score then "High"
  else if 40 ≤ score then "Medium"
  else "Low"

/-- The CRM tracking metadata attached by `LeadsDataCleaner.add_metadata`
(the two timestamp columns are wall-clock values outside the model). -/
structure Meta where
  lead_status : String
  lead_score : Nat
  priority : String
  last_contact_date : Option String
  follow_up_date : Option String
  follow_up_count : Nat
deriving DecidableEq

/-- Model of `LeadsDataCleaner.add_metadata`: status `New Lead`, zeroed follow-up
tracking, and the lead score / priority pair per record. -/
def add_metadata (rows : List Record) : List (Record × Meta) :=
  rows.map (fun r =>
    (r, { lead_status := "New Lead"
          lead_score := calculate_lead_score r
          priority := assign_priority (calculate_lead_score r)
          last_contact_date := none
          follow_up_date := none
          follow_up_count := 0 }))

/-- The fatal error kind of the loader: `ValueError("No valid data found in
any sheet")`, the spec's `NoDataError`. -/
inductive LoadError where
  | noDataError
deriving DecidableEq

/-- Model of `LeadsDataCleaner.load_excel_data` in all-sheets mode, over sheets whose
rows are already in canonical shape: sheets with no rows are skipped; if no
sheet contributed rows the loader raises; otherwise every kept row is tagged
with its `source_sheet` and the sheets are concatenated in order. -/
def load_excel_data (sheets : List (String × List Record)) :
    Except LoadError (List Record) :=
  let all_dfs := sheets.filter (fun s => !s.2.isEmpty)
  if all_dfs.isEmpty then .error .noDataError
  else .ok ((all_dfs.map (fun s => s.2.map (fun r => { r with source_sheet := some s.1 }))).flatten)

/-- Model of `LeadsDataCleaner.clean_all_data` without AI enrichment: load, clean the
fields, deduplicate, add metadata.  A loader failure propagates: no
partially transformed output is produced.  (The column-normalisation stage
is modelled separately on labelled tables; after it the frame has the
canonical columns described by `c`.) -/
def clean_all_data (c : Cols) (sheets : List (String × List Record)) :
    Except LoadError (List (Record × Meta)) :=
  match load_excel_data sheets with
  | .error e => .error e
  | .ok df =>
    .ok (add_metadata (remove_duplicates c
      (clean_addresses c (clean_names_step c (clean_emails c (clean_phone_numbers c df))))))

/-- A lead row as the Python dict handed to `enrich_lead_with_ai`
(`row.to_dict()`): key/value pairs with insertion order. -/
def LeadDict := List (String × String)

/-- Python dict assignment `d[k] = v`: overwrite in place when the key
exists, append otherwise. -/
def dictSet : List (String × String) → String → String → List (String × String)
  | [], k, v => [(k, v)]
  | (k₀, v₀) :: t, k, v =>
    if k₀ = k then (k, v) :: t else (k₀, v₀) :: dictSet t k v

/-- The structured object expected back from the enrichment service.  Each
field is optional: the code reads them with `.get(key, default)`. -/
structure AIInsights where
  customer_segment : Option String := none
  potential_value : Option String := none
  engagement_strategy : Option String := none
  library_benefits : Option (List String) := none
deriving DecidableEq

/-- The four keys written by successful enrichment. -/
def aiFieldKeys : List String :=
  ["ai_customer_segment", "ai_potential_value", "ai_engagement_strategy",
   "ai_library_benefits"]

/-- Model of `LeadsDataCleaner.enrich_lead_with_ai`: `resp` is the parse of the
service response — `none` covers the `json.JSONDecodeError` branch and the
outer `except` (service failure), both of which log and fall through to
`return lead_data` unchanged; on a successful parse the four `ai_*` keys are
written with the `.get` defaults `Unknown` / `Medium` / `Standard` / the
benefit list joined by `'; '`. -/
def enrich_lead_with_ai (lead_data : List (String × String)) (resp : Option AIInsights) :
    List (String × String) :=
  match resp with
  | none => lead_data
  | some a =>
    let d₁ := dictSet lead_data "ai_customer_segment" (a.customer_segment.getD "Unknown")
    let d₂ := dictSet d₁ "ai_potential_value" (a.potential_value.getD "Medium")
    let d₃ := dictSet d₂ "ai_engagement_strategy" (a.engagement_strategy.getD "Standard")
    dictSet d₃ "ai_library_benefits" (String.intercalate "; " (a.library_benefits.getD []))

/-- A raw labelled table for `clean_column_names`: columns in order, each a
label with its cell list.  All columns of a well-formed frame share one row
count. -/
def NTable := List (String × List (Option String))

/-- The frame's row count `len(cleaned_df)`. -/
def rowCount (t : NTable) : Nat :=
  match t with
  | [] => 0
  | col :: _ => col.2.length

/-- Pandas `isna().all()` on a column. -/
def allNaB (cells : List (Option String)) : Bool :=
  cells.all (fun x => x.isNone)

/-- Pandas `(col == '').all()` on a column (NaN compares unequal to `''`). -/
def allEmptyStrB (cells : List (Option String)) : Bool :=
  cells.all (fun x => x == some "")

/-- Step 1 of `clean_column_names`: drop columns that are entirely NaN or
entirely the empty string. -/
def dropEmptyColumns (t : NTable) : NTable :=
  t.filter (fun col => !(allNaB col.2 || allEmptyStrB col.2))

/-- The protected date/timestamp keyword set of step 2. -/
def importantColumns : List String :=
  ["date", "created", "timestamp", "date_contacted", "lead_date", "contact_date"]

/-- Pandas `isna().sum() + (col == '').sum() + (col == 'None').sum()`. -/
def emptyCellCount (cells : List (Option String)) : Nat :=
  (cells.filter (fun x => x.isNone || x == some "" || x == some "None")).length

/-- Step 2 of `clean_column_names`: drop columns that are at least 95%
empty, unless the lowercased stripped label contains a protected keyword.
The float threshold `len * 0.95` is modelled by the exact rational
comparison `20 * empty ≥ 19 * rows` (they agree on every count the
counterexamples use). -/
def dropMeaningless (n : Nat) (t : NTable) : NTable :=
  t.filter (fun col =>
    let colStr := pyStrip (pyLower col.1)
    importantColumns.any (fun kw => containsSub colStr kw) ||
      decide (20 * emptyCellCount col.2 < 19 * n))

/-- Step 3 of `clean_column_names`: drop pandas `Unnamed` artifact columns. -/
def dropUnnamed (t : NTable) : NTable :=
  t.filter (fun col => !containsSub (pyLower col.1) "unnamed")

/-- Characters `\n`, `\r`, `\t` become spaces (step 4). -/
def ctlChar (c : Char) : Char :=
  if c == '\n' || c == '\r' || c == '\t' then ' ' else c

/-- Spaces become underscores (step 4). -/
def underscoreChar (c : Char) : Char :=
  if c == ' ' then '_' else c

/-- The character class `[a-zA-Z0-9_]` kept by step 4's final regex. -/
def allowedChar (c : Char) : Bool :=
  alphaB c || digitB c || c == '_'

/-- Step 4 of `clean_column_names` on the character list of one label:
strip, control characters to spaces, lowercase, spaces to underscores, drop
everything outside `[a-zA-Z0-9_]`. -/
def sanitizePipe (l : List Char) : List Char :=
  (((stripChars l).map ctlChar).map pyLowerChar).map underscoreChar
    |>.filter allowedChar

/-- Step 4 of `clean_column_names` on one label. -/
def sanitizeLabel (s : String) : String :=
  String.mk (sanitizePipe s.data)

/-- Step 4 applied to the whole table. -/
def sanitizeStep (t : NTable) : NTable :=
  t.map (fun col => (sanitizeLabel col.1, col.2))

/-- Update of the first matching key in a counter dict (Python
`seen[col] = n`). -/
def setCount : List (String × Nat) → String → Nat → List (String × Nat)
  | [], k, n => [(k, n)]
  | (k₀, n₀) :: t, k, n =>
    if k₀ = k then (k, n) :: t else (k₀, n₀) :: setCount t k n

/-- The first duplicate-suffix pass: a label already seen `n` times becomes
`label_(n+1)`. -/
def dedupPassA : List (String × Nat) → List String → List String
  | _, [] => []
  | seen, c :: cs =>
    match seen.lookup c with
    | some n => (c ++ "_" ++ toString (n + 1)) :: dedupPassA (setCount seen c (n + 1)) cs
    | none => c :: dedupPassA ((c, 0) :: seen) cs

/-- The second duplicate pass: a label equal to an already-emitted one
becomes `label_col_i` for its position `i`. -/
def dedupPassB : List String → Nat → List String → List String
  | _, _, [] => []
  | acc, i, c :: cs =>
    let c' := if acc.contains c then c ++ "_col_" ++ toString i else c
    c' :: dedupPassB (acc ++ [c']) (i + 1) cs

/-- Relabel the table's columns positionally by a name-list transform. -/
def relabel (t : NTable) (f : List String → List String) : NTable :=
  List.zipWith (fun n col => (n, col.2)) (f (t.map Prod.fst)) t

/-- The `column_mapping` dict of `clean_column_names`, in insertion order. -/
def columnMapping : List (String × String) :=
  [("name", "full_name"), ("first_name", "first_name"), ("last_name", "last_name"),
   ("email", "email"), ("phone", "phone_number"), ("mobile", "phone_number"),
   ("telephone", "phone_number"), ("company", "company_name"),
   ("organization", "company_name"), ("business", "company_name"),
   ("address", "address"), ("city", "city"), ("state", "state"),
   ("country", "country"), ("zip", "postal_code"), ("postal_code", "postal_code"),
   ("notes", "notes"), ("comments", "notes"), ("description", "notes"),
   ("source", "lead_source"), ("origin", "lead_source"), ("date", "lead_date"),
   ("created", "lead_date"), ("timestamp", "lead_date"),
   ("date_contacted", "contact_date")]

/-- Python `s.startswith(pre)` (model of `col.startswith(old_name + '_')`). -/
def labelStartsWith (s pre : String) : Bool :=
  subPrefixB pre.data s.data

/-- Pandas `df.rename(columns={old: nw})`: every column labelled `old` gets the
label `nw`; a label not present is a no-op. -/
def renameColumn (t : NTable) (old nw : String) : NTable :=
  t.map (fun col => if col.1 = old then (nw, col.2) else col)

/-- One `column_mapping` entry: collect the labels equal to the key or
starting with `key + '_'`, then rename the first match to the canonical
name and later matches to `name_(i+1)`, sequentially. -/
def mappingStep (t : NTable) (p : String × String) : NTable :=
  let matching := (t.map Prod.fst).filter
    (fun n => n = p.1 || labelStartsWith n (p.1 ++ "_"))
  matching.enum.foldl
    (fun acc q =>
      renameColumn acc q.2 (if q.1 = 0 then p.2 else p.2 ++ "_" ++ toString (q.1 + 1)))
    t

/-- The whole `column_mapping` loop, keys in insertion order. -/
def mappingLoop (t : NTable) : NTable :=
  columnMapping.foldl mappingStep t

/-- The `additional_mappings` dict of `clean_column_names`, in insertion
order (most keys keep trailing spaces, so after step 4 they can no longer
occur as labels; they are retained verbatim for fidelity). -/
def additionalMappings : List (String × String) :=
  [("name ", "full_name"), ("email id ", "email"), ("phone number ", "phone_number"),
   ("child age ", "child_age"), ("city ", "city"), ("lead type ", "lead_type"),
   ("comments ", "notes"), ("pending action ", "pending_action"),
   ("further action comments ", "further_action"),
   ("storytelling event - julia donaldson by shefali malhotra ", "event_name"),
   ("swati agarwal", "contact_person"),
   ("shared details about the library", "library_details"),
   ("date", "lead_date"), ("date contacted ", "contact_date")]

/-- The `additional_mappings` loop: rename a key only when it is currently a
column label. -/
def additionalStep (t : NTable) : NTable :=
  additionalMappings.foldl
    (fun acc p => if (acc.map Prod.fst).contains p.1 then renameColumn acc p.1 p.2 else acc)
    t

/-- Test that `cleaned_df.columns.duplicated()` is non-empty somewhere. -/
def hasDupNames : List String → Bool
  | [] => false
  | c :: cs => cs.contains c || hasDupNames cs

/-- The post-mapping duplicate pass: a label already seen `n` times becomes
`label_dup_(n+1)`. -/
def dedupPassDup : List (String × Nat) → List String → List String
  | _, [] => []
  | seen, c :: cs =>
    match seen.lookup c with
    | some n => (c ++ "_dup_" ++ toString (n + 1)) :: dedupPassDup (setCount seen c (n + 1)) cs
    | none => c :: dedupPassDup ((c, 0) :: seen) cs

/-- The duplicate check after mapping: only applied when duplicate labels
exist. -/
def dupCheckStep (t : NTable) : NTable :=
  if hasDupNames (t.map Prod.fst) then relabel t (dedupPassDup []) else t

/-- The final cleanup of `clean_column_names`: keep string-labelled columns
not starting with `unnamed` or `col_`, with a label shorter than 50
characters and at least one non-null value. -/
def finalCleanupStep (t : NTable) : NTable :=
  t.filter (fun col =>
    !labelStartsWith col.1 "unnamed" && !labelStartsWith col.1 "col_" &&
      decide (col.1.data.length < 50) &&
      decide (0 < (col.2.filter (fun x => x.isSome)).length))

/-- Model of `LeadsDataCleaner.clean_column_names`: the ten steps in source order. -/
def clean_column_names (t : NTable) : NTable :=
  let t₁ := dropEmptyColumns t
  let t₂ := dropMeaningless (rowCount t₁) t₁
  let t₃ := dropUnnamed t₂
  let t₄ := sanitizeStep t₃
  let t₅ := relabel t₄ (dedupPassA [])
  let t₆ := relabel t₅ (fun ns => dedupPassB [] 0 ns)
  let t₇ := mappingLoop t₆
  let t₈ := additionalStep t₇
  let t₉ := dupCheckStep t₈
  finalCleanupStep t₉

/-- The canonical column set of a table: its labels in order. -/
def colNames (t : NTable) : List String :=
  t.map Prod.fst

/-- The per-label canonical mapping as a single lookup: the first
`column_mapping` key that the (sanitized) label equals or extends with an
underscore wins; an unmatched label is kept.  For a label with a unique
match this is exactly what the `column_mapping` loop does to it. -/
def mapLabel (s : String) : String :=
  match columnMapping.find? (fun p => s = p.1 || labelStartsWith s (p.1 ++ "_")) with
  | some p => p.2
  | none => s

/-- The per-label normalisation: step 4 sanitation followed by the
canonical mapping. -/
def normLabel (s : String) : String :=
  mapLabel (sanitizeLabel s)

/-- Modelled from the spec: the per-record tiered identity key of §3 —
"normalized phone number, else normalized email, else normalized full
name", applied record by record.  Stated only to contrast with the
implemented `dupKey`. -/
def specTieredKey (r : Record) : String :=
  match r.phone_number with
  | some p => p
  | none =>
    match r.email with
    | some e => e
    | none => r.full_name.getD ""

/-- The default canonical frame shape: phone, email, name, city and
source-sheet columns present, no pre-existing first/last name columns. -/
def colsDefault : Cols := {}

/-- Sheet A's row of the end-to-end scenario: name and phone only. -/
def rA : Record :=
  { full_name := some "John Smith", phone_number := some "(555) 123-4567",
    source_sheet := some "Sheet A" }

/-- Sheet B's row of the end-to-end scenario: name, phone and email. -/
def rB : Record :=
  { full_name := some "John Smith", phone_number := some "(555) 123-4567",
    email := some "john@x.com", source_sheet := some "Sheet B" }

/-- A record with no phone, email or name: its duplicate key is empty. -/
def rKeyless₁ : Record := { city := some "A" }

/-- A second keyless record, distinct from the first. -/
def rKeyless₂ : Record := { city := some "B" }

/-- A record with an email but no phone number. -/
def rPhoneless : Record := { email := some "jane@x.com" }

/-- Tie-break example, first occurrence. -/
def rTie₁ : Record := { full_name := some "Ann Lee", phone_number := some "111" }

/-- Tie-break example, second occurrence: same key, same completeness
score, same sheet rank. -/
def rTie₂ : Record :=
  { full_name := some "Ann Lee", phone_number := some "111", child_age := some "5" }

/-- A record with phone, email, city and full name populated and nothing
else. -/
def rFull : Record :=
  { full_name := some "John Smith", phone_number := some "(555) 123-4567",
    email := some "john@x.com", city := some "Pune" }

/-- A record with only a full name. -/
def rNameOnly : Record := { full_name := some "Ann" }

/-- A record with every field missing. -/
def rBlank : Record := {}

/-- The idempotence counterexample table: two columns that both map to the
canonical name `phone_number`, each with one non-empty cell. -/
def tPhoneMobile : NTable :=
  [("phone", [some "5551234567"]), ("mobile", [some "5551234567"])]

/-- A row kept by `drop_duplicates` is the first row of the traversed list
whose key it carries, and its key was not previously seen. -/
theorem mem_drop_duplicates {k : Nat × Record → String} :
    ∀ {seen : List String} {l : List (Nat × Record)} {x : Nat × Record},
      x ∈ drop_duplicates k seen l →
      k x ∉ seen ∧ ∃ l₁ l₂, l = l₁ ++ x :: l₂ ∧ ∀ z ∈ l₁, k z ≠ k x := by
  intro seen l
  induction l generalizing seen with
  | nil => intro x hx; simp [drop_duplicates] at hx
  | cons y ys ih =>
    intro x hx
    rw [drop_duplicates] at hx
    by_cases hy : k y ∈ seen
    · rw [if_pos hy] at hx
      obtain ⟨hns, l₁, l₂, heq, hall⟩ := ih hx
      refine ⟨hns, y :: l₁, l₂, by rw [heq]; rfl, ?_⟩
      intro z hz
      rcases List.mem_cons.mp hz with rfl | hz'
      · exact fun hkk => hns (hkk ▸ hy)
      · exact hall z hz'
    · rw [if_neg hy] at hx
      rcases List.mem_cons.mp hx with rfl | hx'
      · exact ⟨hy, [], ys, rfl, by simp⟩
      · obtain ⟨hns, l₁, l₂, heq, hall⟩ := ih hx'
        have hne : k x ≠ k y := fun hkk => hns (by simp [hkk])
        refine ⟨fun hmem => hns (List.mem_cons_of_mem _ hmem), y :: l₁, l₂,
          by rw [heq]; rfl, ?_⟩
        intro z hz
        rcases List.mem_cons.mp hz with rfl | hz'
        · exact fun hkk => hne hkk.symm
        · exact hall z hz'

/-- The pass `drop_duplicates` only removes rows. -/
theorem drop_duplicates_sublist {k : Nat × Record → String} :
    ∀ (seen : List String) (l : List (Nat × Record)),
      (drop_duplicates k seen l).Sublist l := by
  intro seen l
  induction l generalizing seen with
  | nil => simp [drop_duplicates]
  | cons y ys ih =>
    rw [drop_duplicates]
    by_cases hy : k y ∈ seen
    · rw [if_pos hy]; exact (ih seen).cons y
    · rw [if_neg hy]; exact (ih _).cons₂ y

/-- The pass `drop_duplicates` keeps exactly one row per distinct unseen key. -/
theorem length_drop_duplicates {k : Nat × Record → String} :
    ∀ (seen : List String) (l : List (Nat × Record)),
      (drop_duplicates k seen l).length =
        ((l.map k).toFinset \ seen.toFinset).card := by
  intro seen l
  induction l generalizing seen with
  | nil => simp [drop_duplicates]
  | cons y ys ih =>
    rw [drop_duplicates]
    by_cases hy : k y ∈ seen
    · rw [if_pos hy, ih]
      rw [List.map_cons, List.toFinset_cons,
        Finset.insert_sdiff_of_mem _ (List.mem_toFinset.mpr hy)]
    · rw [if_neg hy]
      rw [List.length_cons, ih]
      rw [List.map_cons, List.toFinset_cons, List.toFinset_cons, Finset.sdiff_insert]
      rw [Finset.insert_sdiff_of_not_mem _ (by simpa using hy)]
      by_cases hyS : k y ∈ (ys.map k).toFinset \ seen.toFinset
      · rw [Finset.card_erase_of_mem hyS, Finset.card_insert_of_mem hyS]
        have : 0 < ((ys.map k).toFinset \ seen.toFinset).card :=
          Finset.card_pos.mpr ⟨k y, hyS⟩
        omega
      · rw [Finset.erase_eq_of_not_mem hyS, Finset.card_insert_of_not_mem hyS]

/-- The dedup sort relation is total. -/
instance rowLeIsTotal (c : Cols) : IsTotal (Nat × Record) (rowLe c) := by
  constructor
  intro a b
  simp only [rowLe, rowLeB]
  split <;>
    simp only [Bool.or_eq_true, Bool.and_eq_true, decide_eq_true_eq, beq_iff_eq] <;>
    omega

/-- The dedup sort relation is transitive. -/
instance rowLeIsTrans (c : Cols) : IsTrans (Nat × Record) (rowLe c) := by
  constructor
  intro a b d
  simp only [rowLe, rowLeB]
  split <;>
    simp only [Bool.or_eq_true, Bool.and_eq_true, decide_eq_true_eq, beq_iff_eq] <;>
    omega

/-- A sort-relation step never increases the completeness score. -/
theorem rowLe_score {c : Cols} {a b : Nat × Record} (h : rowLe c a b) :
    get_completeness_score c b.2 ≤ get_completeness_score c a.2 := by
  simp only [rowLe, rowLeB] at h
  revert h
  split <;>
    simp only [Bool.or_eq_true, Bool.and_eq_true, decide_eq_true_eq, beq_iff_eq] <;>
    omega

/-- With the sheet column present, a sort-relation step between rows of
equal score and equal sheet rank respects original position. -/
theorem rowLe_tie_idx {c : Cols} {a b : Nat × Record} (hsheet : c.sheet = true)
    (hsc : get_completeness_score c a.2 = get_completeness_score c b.2)
    (hpr : get_sheet_priority a.2.source_sheet = get_sheet_priority b.2.source_sheet)
    (h : rowLe c a b) : a.1 ≤ b.1 := by
  simp only [rowLe, rowLeB, hsheet, if_true, Bool.or_eq_true, Bool.and_eq_true,
    decide_eq_true_eq, beq_iff_eq] at h
  omega

/-- C3: within each identity group, the record kept by `remove_duplicates`
has a completeness score at least as large as that of every record of the
group (kept or discarded). -/
theorem kept_record_maximizes_completeness (c : Cols) (rows : List Record)
    (p q : Nat × Record) (hp : p ∈ remove_duplicates_annotated c rows)
    (hq : q ∈ rows.enum) (hkey : dupKey c q.2 = dupKey c p.2) :
    get_completeness_score c q.2 ≤ get_completeness_score c p.2 := by
  obtain ⟨-, l₁, l₂, heq, hall⟩ := mem_drop_duplicates hp
  have hq' : q ∈ List.insertionSort (rowLe c) rows.enum :=
    (List.mem_insertionSort (rowLe c)).mpr hq
  rw [heq] at hq'
  rcases List.mem_append.mp hq' with h₁ | h₂
  · exact absurd hkey (hall q h₁)
  · rcases List.mem_cons.mp h₂ with rfl | h₃
    · exact le_refl _
    · have hs := List.sorted_insertionSort (rowLe c) rows.enum
      rw [heq] at hs
      have hrel : rowLe c p q :=
        (List.pairwise_cons.mp (List.pairwise_append.mp hs).2.1).1 q h₃
      exact rowLe_score hrel

/-- Witness for C3 at the two-sheet scenario: the discarded Sheet A row
scores no more than the kept Sheet B row. -/
theorem kept_record_maximizes_completeness_witness :
    get_completeness_score colsDefault rA ≤ get_completeness_score colsDefault rB :=
  kept_record_maximizes_completeness colsDefault [rA, rB] (1, rB) (0, rA)
    (by decide) (by decide) (by decide)

/-- C4: with the sheet column present, among two rows of one identity group
with equal completeness score and equal sheet rank, the later one in the
original load order is never the kept record (the sort is stable). -/
theorem dedup_tie_keeps_earlier (c : Cols) (rows : List Record) (i j : Nat)
    (r₁ r₂ : Record) (hsheet : c.sheet = true) (hij : i < j)
    (h₁ : rows.get? i = some r₁) (h₂ : rows.get? j = some r₂)
    (hkey : dupKey c r₁ = dupKey c r₂)
    (hsc : get_completeness_score c r₁ = get_completeness_score c r₂)
    (hpr : get_sheet_priority r₁.source_sheet = get_sheet_priority r₂.source_sheet) :
    (j, r₂) ∉ remove_duplicates_annotated c rows := by
  intro hmem
  obtain ⟨-, l₁, l₂, heq, hall⟩ := mem_drop_duplicates hmem
  have hin : (i, r₁) ∈ List.insertionSort (rowLe c) rows.enum :=
    (List.mem_insertionSort (rowLe c)).mpr (List.mk_mem_enum_iff_get?.mpr h₁)
  rw [heq] at hin
  rcases List.mem_append.mp hin with hA | hB
  · exact hall _ hA hkey
  · rcases List.mem_cons.mp hB with hEq | hC
    · exact absurd (congrArg Prod.fst hEq) (Nat.ne_of_lt hij)
    · have hs := List.sorted_insertionSort (rowLe c) rows.enum
      rw [heq] at hs
      have hrel : rowLe c (j, r₂) (i, r₁) :=
        (List.pairwise_cons.mp (List.pairwise_append.mp hs).2.1).1 _ hC
      have hji : j ≤ i := rowLe_tie_idx hsheet hsc.symm hpr.symm hrel
      omega

/-- Witness for C4: two rows with equal key, score and rank — the second
occurrence is not kept. -/
theorem dedup_tie_keeps_earlier_witness :
    (1, rTie₂) ∉ remove_duplicates_annotated colsDefault [rTie₁, rTie₂] :=
  dedup_tie_keeps_earlier colsDefault [rTie₁, rTie₂] 0 1 rTie₁ rTie₂ rfl
    (by decide) rfl rfl (by decide) (by decide) (by decide)

/-- C2 (amended): the deduplicator keeps exactly one record per distinct
duplicate key — the empty key counting as one ordinary key, so empty-key
records are collapsed together — and never grows the record set. -/
theorem dedup_output_size (c : Cols) (rows : List Record) :
    (remove_duplicates c rows).length = ((rows.map (dupKey c)).toFinset).card ∧
      (remove_duplicates c rows).length ≤ rows.length := by
  have hlen : (remove_duplicates c rows).length =
      (remove_duplicates_annotated c rows).length := List.length_map _ _
  constructor
  · rw [hlen, remove_duplicates_annotated, length_drop_duplicates]
    rw [List.toFinset_nil, Finset.sdiff_empty]
    congr 1
    apply List.toFinset_eq_of_perm
    have hperm : (List.insertionSort (rowLe c) rows.enum).map (fun x => dupKey c x.2)
        |>.Perm (rows.enum.map (fun x => dupKey c x.2)) :=
      (List.perm_insertionSort (rowLe c) rows.enum).map _
    have he : rows.enum.map (fun x => dupKey c x.2) = rows.map (dupKey c) := by
      rw [show (fun x : Nat × Record => dupKey c x.2) = (dupKey c) ∘ Prod.snd from rfl,
        ← List.map_map, List.enum_map_snd]
    rw [he] at hperm
    exact hperm
  · rw [hlen]
    calc (remove_duplicates_annotated c rows).length
        ≤ (List.insertionSort (rowLe c) rows.enum).length :=
          (drop_duplicates_sublist _ _).length_le
      _ = rows.enum.length := List.length_insertionSort _ _
      _ = rows.length := List.enum_length

/-- C2 counterexample: two distinct records whose identity key is the empty
string are deduplicated against each other — only one survives, where the
claim requires both. -/
theorem empty_key_records_collapsed_counterexample :
    dupKey colsDefault rKeyless₁ = "" ∧ dupKey colsDefault rKeyless₂ = "" ∧
      rKeyless₁ ≠ rKeyless₂ ∧
      (remove_duplicates colsDefault [rKeyless₁, rKeyless₂]).length = 1 ∧
      (1 : Nat) ≠ 2 := by
  decide

/-- C1 counterexample: with a phone column in the frame, a record lacking a
phone but having an email gets the empty duplicate key, not its email — the
key is not the per-record tiered key of the spec. -/
theorem dup_key_not_per_record_counterexample :
    rPhoneless.phone_number = none ∧ rPhoneless.email = some "jane@x.com" ∧
      specTieredKey rPhoneless = "jane@x.com" ∧
      dupKey colsDefault rPhoneless = "" ∧
      dupKey colsDefault rPhoneless ≠ specTieredKey rPhoneless := by
  decide

/-- C1 (amended): the tier is applied at column level, uniformly for all
records of the batch: when the phone column exists every record's key is
its phone value with missing values mapped to the empty string (so all
phoneless records share one key regardless of their emails); only when the
phone column is absent does the email column serve, and then the name
column. -/
theorem dup_key_is_column_level (c : Cols) (r s : Record) :
    (c.phone = true → dupKey c r = r.phone_number.getD "") ∧
    (c.phone = true → r.phone_number = none → s.phone_number = none →
      dupKey c r = dupKey c s) ∧
    (c.phone = false → c.email = true → dupKey c r = r.email.getD "") ∧
    (c.phone = false → c.email = false → dupKey c r = r.full_name.getD "") := by
  refine ⟨?_, ?_, ?_, ?_⟩ <;> intros <;> simp_all [dupKey]

/-- Witness for C1 (amended) at a phoneless record with an email. -/
theorem dup_key_is_column_level_witness :
    dupKey colsDefault rPhoneless = "" ∧
      dupKey colsDefault rPhoneless = dupKey colsDefault rKeyless₁ := by
  have h := dup_key_is_column_level colsDefault rPhoneless rKeyless₁
  refine ⟨?_, h.2.1 rfl rfl rfl⟩
  rw [h.1 rfl]
  rfl

/-- C5 counterexample: a record with phone, email, city and full name
populated (and no child age or lead type) scores 90, not 100 — the
10-point component reads `child_age`/`lead_type`, never the name — and a
record with only a name scores 0, not 10. -/
theorem lead_score_examples_counterexample :
    calculate_lead_score rFull = 90 ∧ (90 : Nat) ≠ 100 ∧
      calculate_lead_score rNameOnly = 0 ∧ (0 : Nat) ≠ 10 := by
  decide

/-- C5 (amended): priority is High exactly when the score reaches 70,
Medium exactly on [40, 70), Low exactly below 40; the phone+email+city+name
record scores 90 and is High, the name-only record scores 0 and is Low. -/
theorem lead_score_and_priority_amended (r : Record) :
    (assign_priority (calculate_lead_score r) = "High" ↔
      70 ≤ calculate_lead_score r) ∧
    (assign_priority (calculate_lead_score r) = "Medium" ↔
      40 ≤ calculate_lead_score r ∧ calculate_lead_score r < 70) ∧
    (assign_priority (calculate_lead_score r) = "Low" ↔
      calculate_lead_score r < 40) ∧
    assign_priority (calculate_lead_score rFull) = "High" ∧
    assign_priority (calculate_lead_score rNameOnly) = "Low" := by
  refine ⟨?_, ?_, ?_, by decide, by decide⟩ <;>
    · unfold assign_priority
      split_ifs with h1 h2 <;> simp <;> omega

/-- C6: the phone cleaner strips non-digits, formats 10-digit strings,
drops a leading country-code `1` from 11-digit strings, passes other
non-empty digit strings through bare, and sends empty digit strings (and
missing cells) to the missing value — with the spec's four examples. -/
theorem clean_phone_spec :
    clean_phone none = none ∧
    (∀ s : String, pyDigits s = [] → clean_phone (some s) = none) ∧
    (∀ s : String, (pyDigits s).length = 10 →
      clean_phone (some s) = some (formatPhone (pyDigits s))) ∧
    (∀ s : String, (pyDigits s).length = 11 → (pyDigits s).headD ' ' = '1' →
      clean_phone (some s) = some (formatPhone (pyDigits s).tail)) ∧
    (∀ s : String, pyDigits s ≠ [] → (pyDigits s).length ≠ 10 →
      ¬((pyDigits s).length = 11 ∧ (pyDigits s).headD ' ' = '1') →
      clean_phone (some s) = some (String.mk (pyDigits s))) ∧
    clean_phone (some "+1 (555) 123-4567") = some "(555) 123-4567" ∧
    clean_phone (some "555.123.4567") = some "(555) 123-4567" ∧
    clean_phone (some "123") = some "123" ∧
    clean_phone (some "") = none := by
  refine ⟨rfl, ?_, ?_, ?_, ?_, by decide, by decide, by decide, rfl⟩
  · intro s h
    simp [clean_phone, h]
  · intro s h
    simp [clean_phone, h]
  · intro s h1 h2
    have h2x : (pyDigits s).head?.getD ' ' = '1' := by simpa using h2
    simp [clean_phone, h1, h2x]
  · intro s h0 h10 h11
    simp only [clean_phone]
    rw [if_neg h10, if_neg h11, if_pos (List.length_pos.mpr h0)]

/-- Witness for C6 on inputs with no digits and with five digits. -/
theorem clean_phone_spec_witness :
    clean_phone (some "abc") = none ∧
      clean_phone (some "98765") = some (String.mk (pyDigits "98765")) :=
  ⟨clean_phone_spec.2.1 "abc" (by decide),
   clean_phone_spec.2.2.2.2.1 "98765" (by decide) (by decide) (by decide)⟩

/-- C7: when no sheet yields a row, the loader fails with the
`NoDataError`-kind error and the whole pipeline returns that error — no
partially transformed output reaches the caller. -/
theorem no_data_error_aborts (c : Cols) (sheets : List (String × List Record))
    (h : ∀ s ∈ sheets, s.2 = []) :
    load_excel_data sheets = .error .noDataError ∧
      clean_all_data c sheets = .error .noDataError := by
  have hf : sheets.filter (fun s => !s.2.isEmpty) = [] := by
    apply List.filter_eq_nil_iff.mpr
    intro a ha
    simp [h a ha]
  have hload : load_excel_data sheets = .error .noDataError := by
    simp [load_excel_data, hf]
  exact ⟨hload, by simp [clean_all_data, hload]⟩

/-- Witness for C7 at a workbook of two empty sheets. -/
theorem no_data_error_aborts_witness :
    clean_all_data colsDefault [("Sheet1", []), ("brightr lead", [])] =
      .error .noDataError :=
  (no_data_error_aborts colsDefault [("Sheet1", []), ("brightr lead", [])]
    (by decide)).2

/-- Looking up the key just written by a dict assignment yields the new
value. -/
theorem lookup_dictSet_self (d : List (String × String)) (k v : String) :
    (dictSet d k v).lookup k = some v := by
  induction d with
  | nil => simp [dictSet, List.lookup]
  | cons p t ih =>
    obtain ⟨k₀, v₀⟩ := p
    rw [dictSet]
    by_cases hp : k₀ = k
    · rw [if_pos hp]
      simp [List.lookup]
    · rw [if_neg hp]
      have hb : (k == k₀) = false := beq_eq_false_iff_ne.mpr (Ne.symm hp)
      simp [List.lookup, hb, ih]

/-- A dict assignment leaves every other key's lookup unchanged. -/
theorem lookup_dictSet_other (d : List (String × String)) (k k' v : String)
    (h : k' ≠ k) : (dictSet d k v).lookup k' = d.lookup k' := by
  induction d with
  | nil => simp [dictSet, List.lookup, beq_eq_false_iff_ne.mpr h]
  | cons p t ih =>
    obtain ⟨k₀, v₀⟩ := p
    rw [dictSet]
    by_cases hp : k₀ = k
    · rw [if_pos hp]
      subst hp
      simp [List.lookup, beq_eq_false_iff_ne.mpr h]
    · rw [if_neg hp]
      cases hbeq : k' == k₀ <;> simp [List.lookup, hbeq, ih]

/-- C8: enrichment never raises — a malformed response leaves the record
exactly as it was — and a successful response only writes the four `ai_*`
keys, leaving every other field (identity, score, status, ...) unchanged,
with the documented defaults for missing response fields. -/
theorem enrichment_additive (lead_data : List (String × String))
    (resp : Option AIInsights) :
    (resp = none → enrich_lead_with_ai lead_data resp = lead_data) ∧
    (∀ k, k ∉ aiFieldKeys →
      (enrich_lead_with_ai lead_data resp).lookup k = lead_data.lookup k) ∧
    (∀ a, resp = some a →
      (enrich_lead_with_ai lead_data resp).lookup "ai_customer_segment" =
        some (a.customer_segment.getD "Unknown") ∧
      (enrich_lead_with_ai lead_data resp).lookup "ai_potential_value" =
        some (a.potential_value.getD "Medium") ∧
      (enrich_lead_with_ai lead_data resp).lookup "ai_engagement_strategy" =
        some (a.engagement_strategy.getD "Standard") ∧
      (enrich_lead_with_ai lead_data resp).lookup "ai_library_benefits" =
        some (String.intercalate "; " (a.library_benefits.getD []))) := by
  cases resp with
  | none =>
    exact ⟨fun _ => rfl, fun k _ => rfl, fun a ha => Option.noConfusion ha⟩
  | some a =>
    refine ⟨fun h => Option.noConfusion h, ?_, ?_⟩
    · intro k hk
      simp only [aiFieldKeys, List.mem_cons, List.not_mem_nil, or_false] at hk
      push_neg at hk
      obtain ⟨h₁, h₂, h₃, h₄⟩ := hk
      simp only [enrich_lead_with_ai]
      rw [lookup_dictSet_other _ _ _ _ h₄, lookup_dictSet_other _ _ _ _ h₃,
        lookup_dictSet_other _ _ _ _ h₂, lookup_dictSet_other _ _ _ _ h₁]
    · intro a' ha'
      have haa : a = a' := by injection ha'
      subst haa
      simp only [enrich_lead_with_ai]
      refine ⟨?_, ?_, ?_, lookup_dictSet_self _ _ _⟩
      · rw [lookup_dictSet_other _ _ _ _ (by decide),
          lookup_dictSet_other _ _ _ _ (by decide),
          lookup_dictSet_other _ _ _ _ (by decide), lookup_dictSet_self]
      · rw [lookup_dictSet_other _ _ _ _ (by decide),
          lookup_dictSet_other _ _ _ _ (by decide), lookup_dictSet_self]
      · rw [lookup_dictSet_other _ _ _ _ (by decide), lookup_dictSet_self]

/-- Witness for C8: a malformed response leaves a concrete lead unchanged,
and a successful empty response does not touch the `full_name` key. -/
theorem enrichment_additive_witness :
    enrich_lead_with_ai [("full_name", "John Smith")] none =
        [("full_name", "John Smith")] ∧
      (enrich_lead_with_ai [("full_name", "John Smith")] (some {})).lookup
          "full_name" = some "John Smith" := by
  refine ⟨(enrichment_additive [("full_name", "John Smith")] none).1 rfl, ?_⟩
  rw [(enrichment_additive [("full_name", "John Smith")] (some {})).2.1
    "full_name" (by decide)]
  rfl

/-- C10: every record whose `full_name` is missing, in a frame with a
`full_name` column but no pre-existing first/last-name columns, gets the
literal string `nan` as first name and the empty string as last name —
`astype(str)` renders NaN as `'nan'`, `str.split()` of `'nan'` is
`['nan']`, and the joined tail is the empty string. -/
theorem missing_name_becomes_nan (c : Cols) (rows : List Record) (r : Record)
    (hname : c.name = true) (hfirst : c.first = false) (hlast : c.last = false)
    (hmem : r ∈ rows) (hfn : r.full_name = none) :
    clean_names_record c r ∈ clean_names_step c rows ∧
      (clean_names_record c r).first_name = some "nan" ∧
      (clean_names_record c r).last_name = some "" := by
  refine ⟨?_, ?_, ?_⟩
  · rw [clean_names_step, if_pos hname]
    exact List.mem_map_of_mem _ hmem
  · simp only [clean_names_record, hfirst, hfn, if_false, Bool.false_eq_true]
    rfl
  · simp only [clean_names_record, hlast, hfn, if_false, Bool.false_eq_true]
    rfl

/-- Witness for C10 at a record whose `full_name` is missing but whose
email is populated. -/
theorem missing_name_becomes_nan_witness :
    (clean_names_record colsDefault rPhoneless).first_name = some "nan" ∧
      (clean_names_record colsDefault rPhoneless).last_name = some "" := by
  have h := missing_name_becomes_nan colsDefault [rPhoneless] rPhoneless rfl rfl rfl
    (by decide) rfl
  exact ⟨h.2.1, h.2.2⟩

/-- C9 counterexample: on a table whose two columns both map to the
canonical name `phone_number`, the first normalisation pass resolves the
collision with a `_dup_1` suffix, and a second pass renames that suffixed
column to `phone_number_2` — the canonical column set is not a fixed
point. -/
theorem normalizer_not_idempotent_counterexample :
    colNames (clean_column_names tPhoneMobile) =
        ["phone_number", "phone_number_dup_1"] ∧
      colNames (clean_column_names (clean_column_names tPhoneMobile)) =
        ["phone_number", "phone_number_2"] ∧
      colNames (clean_column_names (clean_column_names tPhoneMobile)) ≠
        colNames (clean_column_names tPhoneMobile) := by
  set_option maxRecDepth 10000 in decide

/-- For `Char.ofNat` below the surrogate range, `toNat` round-trips. -/
theorem toNat_ofNat_small {n : Nat} (h : n < 55296) : (Char.ofNat n).toNat = n := by
  rw [Char.ofNat, dif_pos (Or.inl h)]
  rfl

/-- Lowercasing then underscoring a character never yields an ASCII
uppercase letter. -/
theorem upperB_underscore_lower (d : Char) :
    upperB (underscoreChar (pyLowerChar d)) = false := by
  by_cases hu : upperB d = true
  · rw [pyLowerChar, if_pos hu]
    have hd : 65 ≤ d.toNat ∧ d.toNat ≤ 90 := by
      simpa [upperB, Bool.and_eq_true, decide_eq_true_eq] using hu
    have hx : (Char.ofNat (d.toNat + 32)).toNat = d.toNat + 32 :=
      toNat_ofNat_small (by omega)
    have hne : (Char.ofNat (d.toNat + 32) == ' ') = false := by
      apply beq_eq_false_iff_ne.mpr
      intro he
      have h32 := congrArg Char.toNat he
      rw [hx] at h32
      simp at h32
      omega
    rw [underscoreChar, if_neg (by simp [hne])]
    have hgt : ¬(d.toNat + 32 ≤ 90) := by omega
    simp [upperB, hx, hgt]
  · rw [pyLowerChar, if_neg hu]
    by_cases hsp : (d == ' ') = true
    · rw [underscoreChar, if_pos hsp]
      decide
    · rw [underscoreChar, if_neg (by simp at hsp ⊢; exact hsp)]
      simpa using hu

/-- A character kept by the label regex is not whitespace. -/
theorem allowed_not_ws {c : Char} (h : allowedChar c = true) : wsB c = false := by
  cases hw : wsB c
  · rfl
  · exfalso
    simp only [wsB, Bool.or_eq_true, beq_iff_eq] at hw
    have hc : c = ' ' ∨ c = '\t' ∨ c = '\n' ∨ c = '\r' ∨ c = '\x0b' ∨ c = '\x0c' := by
      tauto
    rcases hc with rfl | rfl | rfl | rfl | rfl | rfl <;> exact absurd h (by decide)

/-- A character kept by the label regex is untouched by the control-character
replacement. -/
theorem allowed_ctlChar {c : Char} (h : allowedChar c = true) : ctlChar c = c := by
  by_cases hb : (c == '\n' || c == '\r' || c == '\t') = true
  · simp only [Bool.or_eq_true, beq_iff_eq] at hb
    have hc : c = '\n' ∨ c = '\r' ∨ c = '\t' := by tauto
    rcases hc with rfl | rfl | rfl <;> exact absurd h (by decide)
  · rw [ctlChar, if_neg (by simpa using hb)]

/-- A non-uppercase character is untouched by lowercasing. -/
theorem pyLowerChar_eq_self {c : Char} (h : upperB c = false) : pyLowerChar c = c := by
  rw [pyLowerChar, if_neg (by simp [h])]

/-- A character kept by the label regex is untouched by the space
replacement. -/
theorem underscoreChar_eq_self {c : Char} (h : allowedChar c = true) :
    underscoreChar c = c := by
  by_cases hsp : (c == ' ') = true
  · exact absurd h (by rw [eq_of_beq hsp]; decide)
  · rw [underscoreChar, if_neg (by simpa using hsp)]

/-- A map whose function fixes every member is the identity. -/
theorem map_id_of_mem {f : Char → Char} :
    ∀ {l : List Char}, (∀ c ∈ l, f c = c) → l.map f = l := by
  intro l
  induction l with
  | nil => intro _; rfl
  | cons a t ih =>
    intro h
    rw [List.map_cons, h a (by simp), ih (fun c hc => h c (by simp [hc]))]

/-- List `dropWhile` is the identity when the predicate fails on every member. -/
theorem dropWhile_eq_self {p : Char → Bool} {l : List Char}
    (h : ∀ c ∈ l, p c = false) : l.dropWhile p = l := by
  cases l with
  | nil => rfl
  | cons a t => rw [List.dropWhile_cons, if_neg (by simp [h a (by simp)])]

/-- A sanitized character list is a fixed point of step 4: every character
it keeps is in `[a-zA-Z0-9_]` and, by provenance through lowercasing, not
uppercase, so stripping, control replacement, lowercasing, underscoring and
filtering all leave it unchanged. -/
theorem sanitizePipe_idem (l : List Char) :
    sanitizePipe (sanitizePipe l) = sanitizePipe l := by
  have hA : ∀ c ∈ sanitizePipe l, allowedChar c = true := by
    intro c hc
    exact List.of_mem_filter hc
  have hU : ∀ c ∈ sanitizePipe l, upperB c = false := by
    intro c hc
    have hcw := List.mem_of_mem_filter hc
    obtain ⟨d, hd, rfl⟩ := List.mem_map.mp hcw
    obtain ⟨e, he, rfl⟩ := List.mem_map.mp hd
    exact upperB_underscore_lower e
  have hws : ∀ c ∈ sanitizePipe l, wsB c = false :=
    fun c hc => allowed_not_ws (hA c hc)
  have h1 : stripChars (sanitizePipe l) = sanitizePipe l := by
    rw [stripChars, dropWhile_eq_self hws,
      dropWhile_eq_self (fun c hc => hws c (List.mem_reverse.mp hc)),
      List.reverse_reverse]
  conv_lhs => rw [sanitizePipe]
  rw [h1]
  rw [map_id_of_mem (fun c hc => allowed_ctlChar (hA c hc))]
  rw [map_id_of_mem (fun c hc => pyLowerChar_eq_self (hU c hc))]
  rw [map_id_of_mem (fun c hc => underscoreChar_eq_self (hA c hc))]
  rw [List.filter_eq_self.mpr hA]

/-- Step 4 is idempotent on whole labels. -/
theorem sanitizeLabel_idem (s : String) :
    sanitizeLabel (sanitizeLabel s) = sanitizeLabel s :=
  congrArg String.mk (sanitizePipe_idem s.data)

/-- Every canonical target of the `column_mapping` table is a fixed point
of the per-label normalisation. -/
theorem canonical_targets_fixed : ∀ p ∈ columnMapping, normLabel p.2 = p.2 := by
  decide

/-- C9 (amended): the per-label normalisation — sanitize, then the first
matching `column_mapping` entry — is idempotent on every label; the failure
of table-level idempotence is confined to the renaming of
duplicate-collision suffixes. -/
theorem normLabel_idempotent (s : String) :
    normLabel (normLabel s) = normLabel s := by
  unfold normLabel
  cases h : columnMapping.find?
      (fun p => sanitizeLabel s = p.1 || labelStartsWith (sanitizeLabel s) (p.1 ++ "_")) with
  | none =>
    have h1 : mapLabel (sanitizeLabel s) = sanitizeLabel s := by
      simp only [mapLabel, h]
    rw [h1, sanitizeLabel_idem]
    exact h1
  | some p =>
    have hp : p ∈ columnMapping := List.mem_of_find?_eq_some h
    have h1 : mapLabel (sanitizeLabel s) = p.2 := by
      simp only [mapLabel, h]
    rw [h1]
    exact canonical_targets_fixed p hp
